import Mathlib

/-!
Verification of the kperf request-generation subsystem against its
specification.  The Go source is shallowly embedded: Go structs become Lean
structures, Go `error` returns become `Option String` (`none` is the nil
error) or `Except String`, Go `int`/`int64` become `Int`, Go `float64`
becomes `ℚ` (the float values appearing in the verified properties are
small decimal constants that floats represent exactly enough for every
comparison proved here), and panics become `none` of an `Option`.
Side-effecting code (the PostDel builder, the executor loop) is embedded as
explicit state passing, with random draws and clock readings supplied as
inputs.
-/

namespace KPerf

/-! ## Load-profile data model (api/types/load_traffic.go) -/

/-- Go constant ContentTypeJSON. ContentType is a Go string type; it is
embedded as String. -/
def ContentTypeJSON : String := "json"

/-- Go constant ContentTypeProtobuffer. -/
def ContentTypeProtobuffer : String := "protobuf"

/-- Go constant ModeWeightedRandom. ExecutionMode is a Go string type. -/
def ModeWeightedRandom : String := "weighted-random"

/-- Go constant ModeTimeSeries. -/
def ModeTimeSeries : String := "time-series"

/-- ContentType.Validate: nil for json/protobuf, error otherwise. -/
def contentTypeValidate (ct : String) : Option String :=
  if ct = ContentTypeJSON ∨ ct = ContentTypeProtobuffer then none
  else some "unsupported content type"

/-- ExecutionMode.Validate: nil for weighted-random/time-series, error
otherwise. -/
def executionModeValidate (em : String) : Option String :=
  if em = ModeWeightedRandom ∨ em = ModeTimeSeries then none
  else some "unsupported execution mode"

/-- KubeGroupVersionResource from load_traffic.go. -/
structure KubeGroupVersionResource where
  group : String
  version : String
  resource : String
deriving DecidableEq

/-- RequestGet from load_traffic.go.  The Go field Namespace is called ns
here because namespace is a Lean keyword. -/
structure RequestGet where
  gvr : KubeGroupVersionResource
  ns : String
  name : String
deriving DecidableEq

/-- RequestList from load_traffic.go. -/
structure RequestList where
  gvr : KubeGroupVersionResource
  ns : String
  limit : Int
  selector : String
  fieldSelector : String
deriving DecidableEq

/-- RequestWatchList from load_traffic.go. -/
structure RequestWatchList where
  gvr : KubeGroupVersionResource
  ns : String
  selector : String
  fieldSelector : String
deriving DecidableEq

/-- RequestPut from load_traffic.go. -/
structure RequestPut where
  gvr : KubeGroupVersionResource
  ns : String
  name : String
  keySpaceSize : Int
  valueSize : Int
deriving DecidableEq

/-- RequestPatch from load_traffic.go. -/
structure RequestPatch where
  gvr : KubeGroupVersionResource
  ns : String
  name : String
  keySpaceSize : Int
  patchType : String
  body : String
deriving DecidableEq

/-- RequestGetPodLog from load_traffic.go. -/
structure RequestGetPodLog where
  ns : String
  name : String
  container : String
  tailLines : Option Int
  limitBytes : Option Int
deriving DecidableEq

/-- RequestPostDel from load_traffic.go.  DeleteRatio is a Go float64,
embedded as a rational. -/
structure RequestPostDel where
  gvr : KubeGroupVersionResource
  ns : String
  deleteRatio : ℚ
deriving DecidableEq

/-- WeightedRequest from load_traffic.go: a record with nine optional
variant fields of which at most one is expected to be set. -/
structure WeightedRequest where
  shares : Int
  staleList : Option RequestList := none
  quorumList : Option RequestList := none
  watchList : Option RequestWatchList := none
  staleGet : Option RequestGet := none
  quorumGet : Option RequestGet := none
  put : Option RequestPut := none
  patch : Option RequestPatch := none
  getPodLog : Option RequestGetPodLog := none
  postDel : Option RequestPostDel := none
deriving DecidableEq

/-- WeightedRandomConfig from weighted_random_config.go. -/
structure WeightedRandomConfig where
  rate : ℚ
  total : Int
  duration : Int
  requests : List WeightedRequest
deriving DecidableEq

/-- ExactRequest from weighted_random_config.go (TimeSeriesConfig file). -/
structure ExactRequest where
  method : String
  group : String
  version : String
  resource : String
  ns : String
  name : String
  body : String
  patchType : String
  labelSelector : String
  fieldSelector : String
  limit : Int
  resourceVersion : String
deriving DecidableEq

/-- RequestBucket for time-series mode. -/
structure RequestBucket where
  startTime : ℚ
  requests : List ExactRequest
deriving DecidableEq

/-- TimeSeriesConfig for time-series mode. -/
structure TimeSeriesConfig where
  interval : String
  buckets : List RequestBucket
deriving DecidableEq

/-- ModeConfig realised as its sum type: the Go interface has exactly the
two implementations WeightedRandomConfig and TimeSeriesConfig. -/
inductive ModeConfig where
  | weightedRandom (c : WeightedRandomConfig)
  | timeSeries (c : TimeSeriesConfig)
deriving DecidableEq

/-- LoadProfileSpec from load_traffic.go.  A nil Go interface value for
ModeConfig is Option.none. -/
structure LoadProfileSpec where
  conns : Int
  client : Int
  contentType : String
  disableHTTP2 : Bool
  maxRetries : Int
  mode : String
  modeConfig : Option ModeConfig
deriving DecidableEq

/-- LoadProfile from load_traffic.go. -/
structure LoadProfile where
  version : Int
  description : String
  spec : LoadProfileSpec
deriving DecidableEq

/-! ## JSON validity (model of encoding/json.Valid, used by
RequestPatch.Validate) -/

/-- ASCII whitespace accepted between JSON tokens (RFC 8259: space, tab,
newline, carriage return). -/
def jsonWs (c : Char) : Bool :=
  c = ' ' ∨ c = '\t' ∨ c = '\n' ∨ c = '\r'

/-- Drops leading JSON whitespace. -/
def skipWs : List Char → List Char
  | [] => []
  | c :: r => if jsonWs c then skipWs r else c :: r

/-- Decimal digit test. -/
def jsonDigit (c : Char) : Bool := '0' ≤ c ∧ c ≤ '9'

/-- Hexadecimal digit test. -/
def jsonHexDigit (c : Char) : Bool :=
  jsonDigit c ∨ ('a' ≤ c ∧ c ≤ 'f') ∨ ('A' ≤ c ∧ c ≤ 'F')

/-- Left brace character, written via its code point. -/
def lbrace : Char := Char.ofNat 123

/-- Right brace character, written via its code point. -/
def rbrace : Char := Char.ofNat 125

/-- Consumes the remainder of a JSON string literal after the opening
quote; returns the unconsumed suffix on success. -/
def jsonStringRest (cs : List Char) : Option (List Char) :=
  match cs with
  | [] => none
  | '"' :: r => some r
  | '\\' :: e :: r =>
    if e = '"' ∨ e = '\\' ∨ e = '/' ∨ e = 'b' ∨ e = 'f' ∨ e = 'n' ∨ e = 'r' ∨ e = 't' then
      jsonStringRest r
    else if e = 'u' then
      match r with
      | a :: b :: c :: d :: r2 =>
        if jsonHexDigit a ∧ jsonHexDigit b ∧ jsonHexDigit c ∧ jsonHexDigit d then
          jsonStringRest r2
        else none
      | _ => none
    else none
  | c :: r => if c.toNat < 32 then none else jsonStringRest r
termination_by cs.length
decreasing_by all_goals simp_arith [List.length]

/-- Consumes an optional JSON fraction part. -/
def jsonOptFrac (cs : List Char) : Option (List Char) :=
  match cs with
  | '.' :: r =>
    match r with
    | c :: _ => if jsonDigit c then some (r.dropWhile jsonDigit) else none
    | [] => none
  | _ => some cs

/-- Consumes an optional JSON exponent part. -/
def jsonOptExp (cs : List Char) : Option (List Char) :=
  match cs with
  | e :: r =>
    if e = 'e' ∨ e = 'E' then
      let r2 := match r with
        | s :: r3 => if s = '+' ∨ s = '-' then r3 else r
        | [] => r
      match r2 with
      | c :: _ => if jsonDigit c then some (r2.dropWhile jsonDigit) else none
      | [] => none
    else some cs
  | [] => some cs

/-- Consumes a JSON number starting at the first character (possibly a
minus sign). -/
def jsonNumberRest (cs : List Char) : Option (List Char) :=
  let cs1 := match cs with
    | '-' :: r => r
    | _ => cs
  match cs1 with
  | c :: r =>
    let afterInt : Option (List Char) :=
      if c = '0' then some r
      else if jsonDigit c then some (r.dropWhile jsonDigit)
      else none
    match afterInt with
    | some r2 =>
      match jsonOptFrac r2 with
      | some r3 => jsonOptExp r3
      | none => none
    | none => none
  | [] => none

mutual

/-- Consumes one JSON value (leading whitespace already skipped by the
caller).  fuel bounds recursion depth and list element count; jsonValid
supplies more than enough of it. -/
def jsonValue : Nat → List Char → Option (List Char)
  | 0, _ => none
  | fuel + 1, cs =>
    match cs with
    | [] => none
    | c :: r =>
      if c = '"' then jsonStringRest r
      else if c = 't' then
        match r with
        | 'r' :: 'u' :: 'e' :: r2 => some r2
        | _ => none
      else if c = 'f' then
        match r with
        | 'a' :: 'l' :: 's' :: 'e' :: r2 => some r2
        | _ => none
      else if c = 'n' then
        match r with
        | 'u' :: 'l' :: 'l' :: r2 => some r2
        | _ => none
      else if c = '[' then jsonArrayFirst fuel (skipWs r)
      else if c = lbrace then jsonObjectFirst fuel (skipWs r)
      else if c = '-' ∨ jsonDigit c then jsonNumberRest cs
      else none

/-- Consumes the elements of a JSON array after the opening bracket. -/
def jsonArrayFirst : Nat → List Char → Option (List Char)
  | 0, _ => none
  | fuel + 1, cs =>
    match cs with
    | ']' :: r => some r
    | _ =>
      match jsonValue fuel cs with
      | some r2 => jsonArrayRest fuel (skipWs r2)
      | none => none

/-- Consumes "," value … "]" after an array element. -/
def jsonArrayRest : Nat → List Char → Option (List Char)
  | 0, _ => none
  | fuel + 1, cs =>
    match cs with
    | ']' :: r => some r
    | ',' :: r =>
      match jsonValue fuel (skipWs r) with
      | some r2 => jsonArrayRest fuel (skipWs r2)
      | none => none
    | _ => none

/-- Consumes the members of a JSON object after the opening brace. -/
def jsonObjectFirst : Nat → List Char → Option (List Char)
  | 0, _ => none
  | fuel + 1, cs =>
    match cs with
    | c :: r =>
      if c = rbrace then some r
      else if c = '"' then
        match jsonStringRest r with
        | some r2 =>
          match skipWs r2 with
          | ':' :: r3 =>
            match jsonValue fuel (skipWs r3) with
            | some r4 => jsonObjectRest fuel (skipWs r4)
            | none => none
          | _ => none
        | none => none
      else none
    | [] => none

/-- Consumes "," string ":" value … after an object member. -/
def jsonObjectRest : Nat → List Char → Option (List Char)
  | 0, _ => none
  | fuel + 1, cs =>
    match cs with
    | c :: r =>
      if c = rbrace then some r
      else if c = ',' then
        match skipWs r with
        | '"' :: r2 =>
          match jsonStringRest r2 with
          | some r3 =>
            match skipWs r3 with
            | ':' :: r4 =>
              match jsonValue fuel (skipWs r4) with
              | some r5 => jsonObjectRest fuel (skipWs r5)
              | none => none
            | _ => none
          | none => none
        | _ => none
      else none
    | [] => none

end

/-- Model of encoding/json.Valid: the whole input is one JSON value
surrounded by optional whitespace. -/
def jsonValid (s : String) : Bool :=
  match jsonValue (s.data.length + 1) (skipWs s.data) with
  | some rest => (skipWs rest).isEmpty
  | none => false

/-- Model of strings.TrimSpace restricted to the ASCII whitespace that can
occur around JSON bodies. -/
def trimSpace (s : String) : String :=
  String.mk (((s.data.dropWhile jsonWs).reverse.dropWhile jsonWs).reverse)

/-! ## Validation (api/types/load_traffic.go) -/

/-- KubeGroupVersionResource.Validate. -/
def KubeGroupVersionResource.Validate (m : KubeGroupVersionResource) : Option String :=
  if m.version = "" then some "version is required"
  else if m.resource = "" then some "resource is required"
  else none

/-- RequestList.Validate with the stale flag. -/
def RequestList.Validate (r : RequestList) (stale : Bool) : Option String :=
  match r.gvr.Validate with
  | some e => some ("kube metadata: " ++ e)
  | none =>
    if r.limit < 0 then some "limit must >= 0"
    else if stale ∧ r.limit ≠ 0 then some "stale list does not support pagination option"
    else none

/-- RequestWatchList.Validate. -/
def RequestWatchList.Validate (r : RequestWatchList) : Option String :=
  match r.gvr.Validate with
  | some e => some ("kube metadata: " ++ e)
  | none => none

/-- RequestGet.Validate. -/
def RequestGet.Validate (r : RequestGet) : Option String :=
  match r.gvr.Validate with
  | some e => some ("kube metadata: " ++ e)
  | none => if r.name = "" then some "name is required" else none

/-- RequestPut.Validate. -/
def RequestPut.Validate (r : RequestPut) : Option String :=
  match r.gvr.Validate with
  | some e => some ("kube metadata: " ++ e)
  | none =>
    if r.name = "" then some "name pattern is required"
    else if r.keySpaceSize ≤ 0 then some "keySpaceSize must > 0"
    else if r.valueSize ≤ 0 then some "valueSize must > 0"
    else none

/-- RequestGetPodLog.Validate. -/
def RequestGetPodLog.Validate (r : RequestGetPodLog) : Option String :=
  if r.ns = "" then some "namespace is required"
  else if r.name = "" then some "name is required"
  else none

/-- GetPatchType: maps the profile patch-type names to the Kubernetes patch
content types; none models the (\"\", false) failure return. -/
def GetPatchType (patchType : String) : Option String :=
  if patchType = "json" then some "application/json-patch+json"
  else if patchType = "merge" then some "application/merge-patch+json"
  else if patchType = "strategic-merge" then some "application/strategic-merge-patch+json"
  else none

/-- RequestPatch.Validate (the body-trimming write-back does not affect
whether an error is returned). -/
def RequestPatch.Validate (r : RequestPatch) : Option String :=
  match r.gvr.Validate with
  | some e => some ("kube metadata: " ++ e)
  | none =>
    if r.name = "" then some "name is required"
    else if r.body = "" then some "body is required"
    else if (GetPatchType r.patchType).isNone then some "unknown patch type"
    else if ¬ jsonValid (trimSpace r.body) then some "invalid JSON in patch body"
    else none

/-- RequestPostDel.Validate. -/
def RequestPostDel.Validate (r : RequestPostDel) : Option String :=
  match r.gvr.Validate with
  | some e => some ("kube metadata: " ++ e)
  | none =>
    if r.deleteRatio < 0 ∨ r.deleteRatio > 1/2 then
      some "delete ratio must be between 0 and 0.5"
    else none

/-- WeightedRequest.Validate: shares must be nonnegative, then the first
non-nil variant in source order is validated; no variant is an error. -/
def WeightedRequest.Validate (r : WeightedRequest) : Option String :=
  if r.shares < 0 then some "shares requires >= 0"
  else
    match r.staleList, r.quorumList, r.watchList, r.staleGet, r.quorumGet,
          r.put, r.patch, r.getPodLog, r.postDel with
    | some x, _, _, _, _, _, _, _, _ => x.Validate true
    | none, some x, _, _, _, _, _, _, _ => x.Validate false
    | none, none, some x, _, _, _, _, _, _ => x.Validate
    | none, none, none, some x, _, _, _, _, _ => x.Validate
    | none, none, none, none, some x, _, _, _, _ => x.Validate
    | none, none, none, none, none, some x, _, _, _ => x.Validate
    | none, none, none, none, none, none, some x, _, _ => x.Validate
    | none, none, none, none, none, none, none, some x, _ => x.Validate
    | none, none, none, none, none, none, none, none, some x => x.Validate
    | none, none, none, none, none, none, none, none, none => some "empty request value"

/-- LoadProfileSpec.Validate: only the common fields are checked — conns,
client, contentType, mode, and that modeConfig is non-nil.  It does not
recurse into the mode config or its weighted requests. -/
def LoadProfileSpec.Validate (spec : LoadProfileSpec) : Option String :=
  if spec.conns ≤ 0 then some "conns requires > 0"
  else if spec.client ≤ 0 then some "client requires > 0"
  else
    match contentTypeValidate spec.contentType with
    | some e => some e
    | none =>
      match executionModeValidate spec.mode with
      | some e => some e
      | none =>
        if spec.modeConfig = none then some "modeConfig is required" else none

/-- LoadProfile.Validate: version must be 1, then the spec is validated. -/
def LoadProfile.Validate (lp : LoadProfile) : Option String :=
  if lp.version ≠ 1 then some "version should be 1" else lp.spec.Validate

/-- Condition from the claim: some weighted request of the profile has
negative shares. -/
def specHasNegativeShares (lp : LoadProfile) : Bool :=
  match lp.spec.modeConfig with
  | some (ModeConfig.weightedRandom c) => c.requests.any (fun r => r.shares < 0)
  | _ => false

/-- Profile used as the validation counterexample: all common fields are
valid but its single weighted request has shares = -1. -/
def lpNegShares : LoadProfile :=
  { version := 1
    description := ""
    spec :=
      { conns := 1
        client := 1
        contentType := ContentTypeJSON
        disableHTTP2 := false
        maxRetries := 0
        mode := ModeWeightedRandom
        modeConfig := some (ModeConfig.weightedRandom
          { rate := 0
            total := 10
            duration := 0
            requests := [
              { shares := -1
                staleGet := some
                  { gvr := { group := "", version := "v1", resource := "pods" }
                    ns := "default"
                    name := "x" } }] }) } }

/-! ## Theorems for claim C2 -/

/-- C2 counterexample: the profile lpNegShares contains a weighted request
with shares < 0, yet LoadProfile.Validate returns no error, so the claim
that Validate errors whenever some weighted request has negative shares is
false. -/
theorem C2_counterexample :
    specHasNegativeShares lpNegShares = true ∧ lpNegShares.Validate = none := by
  constructor <;> rfl

/-- C2 amended: LoadProfile.Validate returns no error exactly when
version = 1, conns > 0, client > 0, the contentType and mode are known, and
modeConfig is non-nil.  The per-request conditions of the claim (negative
shares, stale-list limit, patch body and type, postDel deleteRatio, missing
resource or version) are checked only by WeightedRequest.Validate, which
LoadProfile.Validate never invokes. -/
theorem loadProfileSpecValidate_eq_none (spec : LoadProfileSpec) :
    spec.Validate = none ↔
      0 < spec.conns ∧ 0 < spec.client ∧
      (spec.contentType = ContentTypeJSON ∨
        spec.contentType = ContentTypeProtobuffer) ∧
      (spec.mode = ModeWeightedRandom ∨ spec.mode = ModeTimeSeries) ∧
      spec.modeConfig ≠ none := by
  unfold LoadProfileSpec.Validate contentTypeValidate executionModeValidate
  by_cases h2 : spec.conns ≤ 0
  all_goals by_cases h3 : spec.client ≤ 0
  all_goals by_cases h4 : spec.contentType = ContentTypeJSON ∨
    spec.contentType = ContentTypeProtobuffer
  all_goals by_cases h5 : spec.mode = ModeWeightedRandom ∨
    spec.mode = ModeTimeSeries
  all_goals by_cases h6 : spec.modeConfig = none
  all_goals simp [h2, h3, h4, h5, h6]
  all_goals try omega

theorem C2_validate_common_fields (lp : LoadProfile) :
    lp.Validate = none ↔
      lp.version = 1 ∧ 0 < lp.spec.conns ∧ 0 < lp.spec.client ∧
      (lp.spec.contentType = ContentTypeJSON ∨
        lp.spec.contentType = ContentTypeProtobuffer) ∧
      (lp.spec.mode = ModeWeightedRandom ∨ lp.spec.mode = ModeTimeSeries) ∧
      lp.spec.modeConfig ≠ none := by
  unfold LoadProfile.Validate
  by_cases h1 : lp.version = 1 <;>
    simp [h1, loadProfileSpecValidate_eq_none]

/-! ## Deserialisation (UnmarshalYAML / UnmarshalJSON of LoadProfileSpec).
The YAML and JSON unmarshallers in load_traffic.go are textually identical
up to the codec; both are embedded once.  The codec itself is external: the
embedding starts from the already-decoded temporary struct tempSpec, whose
fields take the Go zero value when absent from the document. -/

/-- The untyped modeConfig mapping of tempSpec.  Re-encoding the mapping
and decoding it into a typed config extracts the fields that config
declares, so the mapping is embedded as the union of both configs'
fields. -/
structure RawModeConfig where
  rate : ℚ := 0
  total : Int := 0
  duration : Int := 0
  requests : List WeightedRequest := []
  interval : String := ""
  buckets : List RequestBucket := []
deriving DecidableEq

/-- Decoding the raw mapping into WeightedRandomConfig. -/
def RawModeConfig.toWeightedRandom (m : RawModeConfig) : WeightedRandomConfig :=
  { rate := m.rate, total := m.total, duration := m.duration, requests := m.requests }

/-- Decoding the raw mapping into TimeSeriesConfig. -/
def RawModeConfig.toTimeSeries (m : RawModeConfig) : TimeSeriesConfig :=
  { interval := m.interval, buckets := m.buckets }

/-- tempSpec from the unmarshallers: all spec fields plus the legacy
top-level fields; absent document fields hold Go zero values. -/
structure TempSpec where
  conns : Int := 0
  client : Int := 0
  contentType : String := ""
  disableHTTP2 : Bool := false
  maxRetries : Int := 0
  mode : String := ""
  modeConfig : Option RawModeConfig := none
  rate : ℚ := 0
  total : Int := 0
  duration : Int := 0
  requests : List WeightedRequest := []
deriving DecidableEq

/-- UnmarshalYAML / UnmarshalJSON of LoadProfileSpec, starting from the
decoded tempSpec: copy the common fields; if mode is absent and the
requests list is non-empty, migrate the legacy format to weighted-random;
otherwise decode modeConfig (when present) according to mode, failing on an
unknown mode. -/
def unmarshalLoadProfileSpec (temp : TempSpec) : Except String LoadProfileSpec :=
  if temp.mode = "" ∧ temp.requests.length > 0 then
    Except.ok
      { conns := temp.conns
        client := temp.client
        contentType := temp.contentType
        disableHTTP2 := temp.disableHTTP2
        maxRetries := temp.maxRetries
        mode := ModeWeightedRandom
        modeConfig := some (ModeConfig.weightedRandom
          { rate := temp.rate
            total := temp.total
            duration := temp.duration
            requests := temp.requests }) }
  else
    match temp.modeConfig with
    | none =>
      Except.ok
        { conns := temp.conns
          client := temp.client
          contentType := temp.contentType
          disableHTTP2 := temp.disableHTTP2
          maxRetries := temp.maxRetries
          mode := temp.mode
          modeConfig := none }
    | some raw =>
      if temp.mode = ModeWeightedRandom then
        Except.ok
          { conns := temp.conns
            client := temp.client
            contentType := temp.contentType
            disableHTTP2 := temp.disableHTTP2
            maxRetries := temp.maxRetries
            mode := temp.mode
            modeConfig := some (ModeConfig.weightedRandom raw.toWeightedRandom) }
      else if temp.mode = ModeTimeSeries then
        Except.ok
          { conns := temp.conns
            client := temp.client
            contentType := temp.contentType
            disableHTTP2 := temp.disableHTTP2
            maxRetries := temp.maxRetries
            mode := temp.mode
            modeConfig := some (ModeConfig.timeSeries raw.toTimeSeries) }
      else
        Except.error ("unknown mode: " ++ temp.mode)

/-- Document for the C3 counterexample: mode absent, the top-level legacy
field rate present (value 50), but no requests. -/
def tempRateOnly : TempSpec := { rate := 50 }

/-! ## Theorems for claim C3 -/

/-- C3 counterexample: with mode absent and the top-level field rate
present (but the requests list empty), deserialisation succeeds with mode
left empty, not weighted-random, and no synthesised config — the legacy
migration requires a non-empty requests list. -/
theorem C3_counterexample :
    tempRateOnly.rate = 50 ∧ tempRateOnly.mode = "" ∧
    unmarshalLoadProfileSpec tempRateOnly =
      Except.ok
        { conns := 0, client := 0, contentType := "", disableHTTP2 := false,
          maxRetries := 0, mode := "", modeConfig := none } ∧
    ("" : String) ≠ ModeWeightedRandom := by
  refine ⟨rfl, rfl, rfl, ?_⟩
  decide

/-- C3 amended: when mode is absent and the requests list is non-empty,
deserialisation succeeds with Mode = weighted-random and a synthesised
WeightedRandomConfig carrying exactly the top-level rate, total, duration
and requests values. -/
theorem C3_legacy_migration (temp : TempSpec)
    (hmode : temp.mode = "") (hreq : temp.requests ≠ []) :
    unmarshalLoadProfileSpec temp =
      Except.ok
        { conns := temp.conns
          client := temp.client
          contentType := temp.contentType
          disableHTTP2 := temp.disableHTTP2
          maxRetries := temp.maxRetries
          mode := ModeWeightedRandom
          modeConfig := some (ModeConfig.weightedRandom
            { rate := temp.rate
              total := temp.total
              duration := temp.duration
              requests := temp.requests }) } := by
  have hlen : temp.requests.length > 0 := by
    cases h : temp.requests with
    | nil => exact absurd h hreq
    | cons a l => simp [h]
  unfold unmarshalLoadProfileSpec
  simp [hmode, hlen]

/-- Witness for the C3 legacy-migration theorem at a concrete document. -/
theorem C3_legacy_migration_witness :
    ({ mode := "", rate := 50, total := 5000, duration := 120,
       requests := [{ shares := 1 }] } : TempSpec).mode = "" ∧
    ({ mode := "", rate := 50, total := 5000, duration := 120,
       requests := [{ shares := 1 }] } : TempSpec).requests ≠ [] ∧
    unmarshalLoadProfileSpec
        { mode := "", rate := 50, total := 5000, duration := 120,
          requests := [{ shares := 1 }] } =
      Except.ok
        { conns := 0, client := 0, contentType := "", disableHTTP2 := false,
          maxRetries := 0, mode := ModeWeightedRandom,
          modeConfig := some (ModeConfig.weightedRandom
            { rate := 50, total := 5000, duration := 120,
              requests := [{ shares := 1 }] }) } :=
  ⟨rfl, by decide,
    C3_legacy_migration
      { mode := "", rate := 50, total := 5000, duration := 120,
        requests := [{ shares := 1 }] } rfl (by decide)⟩

/-! ## WeightedRandomExecutor.randomPick (request/executor weighted-random
executor).  The source sums the share vector, draws a cryptographic random
integer in [0, sum) — crypto/rand.Int panics when the modulus is not
positive — and walks the share list subtracting each share until the draw
is below the current share.  The draw is an input here; none models a
panic. -/

/-- Sum of the share vector, as computed by the summing loop. -/
def sumShares (shares : List Int) : Int := shares.foldl (· + ·) 0

/-- The selection walk of randomPick: return the first index whose share
exceeds the remaining draw, subtracting shares as it goes; none is the
final (claimed unreachable) panic. -/
def pickWalk : List Int → Int → Option Nat
  | [], _ => none
  | s :: rest, r => if r < s then some 0 else (pickWalk rest (r - s)).map (· + 1)

/-- randomPick with the drawn integer r as input: rand.Int panics (none)
when the sum of shares is not positive, otherwise the walk runs on r. -/
def randomPick (shares : List Int) (r : Int) : Option Nat :=
  if sumShares shares ≤ 0 then none else pickWalk shares r

/-- The share vector NewWeightedRandomExecutor builds from the config. -/
def executorShares (c : WeightedRandomConfig) : List Int :=
  c.requests.map (fun r => r.shares)

theorem foldl_add_shift (l : List Int) : ∀ a : Int, l.foldl (· + ·) a = a + l.foldl (· + ·) 0 := by
  induction l with
  | nil => simp
  | cons x xs ih =>
    intro a
    simp only [List.foldl_cons]
    rw [ih (a + x), ih (0 + x)]
    ring

theorem sumShares_cons (s : Int) (rest : List Int) :
    sumShares (s :: rest) = s + sumShares rest := by
  simp only [sumShares, List.foldl_cons]
  rw [foldl_add_shift rest (0 + s)]
  ring

theorem sumShares_take_nonneg (l : List Int) (k : Nat) (hnn : ∀ s ∈ l, 0 ≤ s) :
    0 ≤ sumShares (l.take k) := by
  induction l generalizing k with
  | nil => simp [sumShares]
  | cons x xs ih =>
    cases k with
    | zero => simp [sumShares]
    | succ k =>
      rw [List.take_succ_cons, sumShares_cons]
      have hx : 0 ≤ x := hnn x (by simp)
      have := ih k (fun s hs => hnn s (by simp [hs]))
      omega

theorem pickWalk_spec (shares : List Int) (r : Int)
    (hnn : ∀ s ∈ shares, 0 ≤ s) (h0 : 0 ≤ r) (hlt : r < sumShares shares) :
    ∃ i, pickWalk shares r = some i ∧ i < shares.length ∧
      sumShares (shares.take i) ≤ r ∧ r < sumShares (shares.take (i + 1)) ∧
      ∀ j, sumShares (shares.take j) ≤ r →
        r < sumShares (shares.take (j + 1)) → j = i := by
  induction shares generalizing r with
  | nil =>
    exfalso
    simp [sumShares] at hlt
    omega
  | cons s rest ih =>
    have hs : 0 ≤ s := hnn s (by simp)
    rw [sumShares_cons] at hlt
    by_cases hr : r < s
    · refine ⟨0, by simp [pickWalk, hr], by simp, by simp [sumShares]; omega, ?_, ?_⟩
      · rw [List.take_succ_cons]
        simp only [List.take_zero]
        rw [sumShares_cons]
        have := sumShares_take_nonneg rest 0 (fun x hx => hnn x (by simp [hx]))
        simp [sumShares] at this ⊢
        omega
      · intro j hj1 _
        cases j with
        | zero => rfl
        | succ k =>
          exfalso
          rw [List.take_succ_cons, sumShares_cons] at hj1
          have := sumShares_take_nonneg rest k (fun x hx => hnn x (by simp [hx]))
          omega
    · have hr' : s ≤ r := not_lt.mp hr
      obtain ⟨i, hwalk, hlen, hlow, hhigh, huniq⟩ :=
        ih (r - s) (fun x hx => hnn x (by simp [hx])) (by omega) (by omega)
      refine ⟨i + 1, ?_, by simpa using Nat.succ_lt_succ hlen, ?_, ?_, ?_⟩
      · simp [pickWalk, hr, hwalk]
      · rw [List.take_succ_cons, sumShares_cons]
        omega
      · rw [List.take_succ_cons, sumShares_cons]
        omega
      · intro j hj1 hj2
        cases j with
        | zero =>
          exfalso
          rw [List.take_succ_cons] at hj2
          simp only [List.take_zero] at hj2
          rw [sumShares_cons] at hj2
          have := sumShares_take_nonneg rest 0 (fun x hx => hnn x (by simp [hx]))
          simp [sumShares] at this hj2
          omega
        | succ k =>
          rw [List.take_succ_cons, sumShares_cons] at hj1 hj2
          have := huniq k (by omega) (by omega)
          omega

/-! ## Theorems for claim C4 -/

/-- C4: for a share list (shares are nonnegative by the data model) with
positive sum and a drawn integer r in [0, sum), randomPick returns the
unique index whose prefix-sum window contains r; in particular it returns
some index, so the final panic branch is unreachable. -/
theorem C4_randomPick_walk (shares : List Int) (r : Int)
    (hnn : ∀ s ∈ shares, 0 ≤ s) (hsum : 0 < sumShares shares)
    (h0 : 0 ≤ r) (hlt : r < sumShares shares) :
    ∃ i, randomPick shares r = some i ∧ i < shares.length ∧
      sumShares (shares.take i) ≤ r ∧ r < sumShares (shares.take (i + 1)) ∧
      ∀ j, sumShares (shares.take j) ≤ r →
        r < sumShares (shares.take (j + 1)) → j = i := by
  have hwalk := pickWalk_spec shares r hnn h0 hlt
  unfold randomPick
  rw [if_neg (not_le.mpr hsum)]
  exact hwalk

/-- Witness for C4 at the share list [2, 3] and the draw 3. -/
theorem C4_randomPick_walk_witness :
    (∀ s ∈ ([2, 3] : List Int), 0 ≤ s) ∧ 0 < sumShares [2, 3] ∧
    (0 : Int) ≤ 3 ∧ (3 : Int) < sumShares [2, 3] ∧
    (∃ i, randomPick [2, 3] 3 = some i ∧ i < ([2, 3] : List Int).length ∧
      sumShares (([2, 3] : List Int).take i) ≤ 3 ∧
      (3 : Int) < sumShares (([2, 3] : List Int).take (i + 1)) ∧
      ∀ j, sumShares (([2, 3] : List Int).take j) ≤ 3 →
        (3 : Int) < sumShares (([2, 3] : List Int).take (j + 1)) → j = i) :=
  ⟨by decide, by decide, by decide, by decide,
    C4_randomPick_walk [2, 3] 3 (by decide) (by decide) (by decide) (by decide)⟩

/-! ## Theorems for claim C10 -/

/-- Weighted-random config whose requests are all valid but carry zero
shares. -/
def zeroSharesConfig : WeightedRandomConfig :=
  { rate := 0
    total := 10
    duration := 0
    requests := [
      { shares := 0
        staleGet := some
          { gvr := { group := "", version := "v1", resource := "pods" }
            ns := "default"
            name := "x" } }] }

/-- Load profile wrapping zeroSharesConfig; every common field is valid. -/
def zeroSharesProfile : LoadProfile :=
  { version := 1
    description := ""
    spec :=
      { conns := 1
        client := 1
        contentType := ContentTypeJSON
        disableHTTP2 := false
        maxRetries := 0
        mode := ModeWeightedRandom
        modeConfig := some (ModeConfig.weightedRandom zeroSharesConfig) } }

/-- C10: zeroSharesProfile passes LoadProfile.Validate, every one of its
weighted requests passes WeightedRequest.Validate (shares = 0 is allowed),
yet the executor share vector sums to 0, so randomPick reaches
crypto/rand.Int with a non-positive modulus and panics (none) on every
draw — WeightedRandomExecutor.Run panics on its first iteration. -/
theorem C10_valid_profile_randomPick_panics :
    zeroSharesProfile.Validate = none ∧
    (zeroSharesConfig.requests.all
      (fun r => (WeightedRequest.Validate r).isNone)) = true ∧
    sumShares (executorShares zeroSharesConfig) = 0 ∧
    ∀ r : Int, randomPick (executorShares zeroSharesConfig) r = none := by
  refine ⟨rfl, rfl, rfl, ?_⟩
  intro r
  rfl

/-! ## WeightedRandomExecutor.Run.  The loop is embedded for the situation
the claim describes: neither context is cancelled, so every select takes
the send branch and each send eventually succeeds (a worker receives it).
pick gives the builder randomPick chooses at the iteration whose sum
counter is its argument; the result collects the builders sent, in order.
some models Run returning nil through the loop break; none means the fuel
ran out before the loop exited, so termination is the existence of a
sufficient fuel. -/

/-- One Go iteration: break when total > 0 and sum >= total, else send the
picked builder and increment sum. -/
def wrRunLoop {β : Type} (pick : Int → β) : Nat → Int → Int → Option (List β)
  | 0, _, _ => none
  | fuel + 1, total, sum =>
    if 0 < total ∧ total ≤ sum then some []
    else (wrRunLoop pick fuel total (sum + 1)).map (fun l => pick sum :: l)

/-- The builders picked at iterations sum, sum+1, …, sum+k-1. -/
def pickList {β : Type} (pick : Int → β) : Int → Nat → List β
  | _, 0 => []
  | s, k + 1 => pick s :: pickList pick (s + 1) k

theorem pickList_length {β : Type} (pick : Int → β) (s : Int) (k : Nat) :
    (pickList pick s k).length = k := by
  induction k generalizing s with
  | zero => rfl
  | succ k ih => simp [pickList, ih]

theorem wrRunLoop_spec {β : Type} (pick : Int → β) (fuel : Nat) (total sum : Int)
    (hpos : 0 < total) (hle : sum ≤ total) (hfuel : (total - sum).toNat < fuel) :
    wrRunLoop pick fuel total sum = some (pickList pick sum (total - sum).toNat) := by
  induction fuel generalizing sum with
  | zero => omega
  | succ fuel ih =>
    by_cases hstop : total ≤ sum
    · have : (total - sum).toNat = 0 := by omega
      simp [wrRunLoop, hpos, hstop, this, pickList]
    · have hne : ¬ (0 < total ∧ total ≤ sum) := by omega
      have hk : (total - sum).toNat = (total - (sum + 1)).toNat + 1 := by omega
      rw [wrRunLoop, if_neg hne, ih (sum + 1) (by omega) (by omega), hk]
      rfl

/-! ## Theorems for claim C5 -/

/-- C5: with config.Total > 0 and no cancellation, Run exits through the
break (returning nil) after sending exactly config.Total builders on the
output channel, in iteration order. -/
theorem C5_run_sends_total {β : Type} (pick : Int → β) (total : Int)
    (hpos : 0 < total) :
    ∃ sent : List β,
      wrRunLoop pick (total.toNat + 1) total 0 = some sent ∧
      sent.length = total.toNat ∧ sent = pickList pick 0 total.toNat := by
  have h := wrRunLoop_spec pick (total.toNat + 1) total 0 hpos (by omega) (by omega)
  refine ⟨pickList pick 0 (total - 0).toNat, ?_, ?_, ?_⟩
  · exact h
  · rw [pickList_length]; omega
  · norm_num

/-- Witness for C5 with total = 3 and a constant pick. -/
theorem C5_run_sends_total_witness :
    (0 : Int) < 3 ∧
    ∃ sent : List Nat,
      wrRunLoop (fun _ => 7) ((3 : Int).toNat + 1) 3 0 = some sent ∧
      sent.length = (3 : Int).toNat ∧ sent = pickList (fun _ => 7) 0 (3 : Int).toNat :=
  ⟨by decide, C5_run_sends_total (fun _ => 7) 3 (by decide)⟩

/-! ## Request builders (request/random.go) and the builder factories.
Each Go builder struct is embedded with its fields; Build is embedded for
the builders whose behaviour the claims are about (patch and postDel),
taking the random draw, clock reading and cache content as explicit
inputs. -/

/-- requestGetBuilder from random.go. -/
structure requestGetBuilder where
  group : String
  version : String
  resource : String
  ns : String
  name : String
  resourceVersion : String
  maxRetries : Int
deriving DecidableEq

/-- requestListBuilder from random.go. -/
structure requestListBuilder where
  group : String
  version : String
  resource : String
  ns : String
  limit : Int
  labelSelector : String
  fieldSelector : String
  resourceVersion : String
  maxRetries : Int
deriving DecidableEq

/-- requestWatchListBuilder from random.go. -/
structure requestWatchListBuilder where
  group : String
  version : String
  resource : String
  ns : String
  labelSelector : String
  fieldSelector : String
  maxRetries : Int
deriving DecidableEq

/-- requestGetPodLogBuilder from random.go. -/
structure requestGetPodLogBuilder where
  ns : String
  name : String
  container : String
  tailLines : Option Int
  limitBytes : Option Int
  maxRetries : Int
deriving DecidableEq

/-- requestPatchBuilder from random.go. -/
structure requestPatchBuilder where
  group : String
  version : String
  resource : String
  resourceVersion : String
  ns : String
  name : String
  keySpaceSize : Int
  patchType : String
  body : String
  maxRetries : Int
deriving DecidableEq

/-- requestPostDelBuilder from random.go (static fields; the cache and the
atomic counter are the builder's mutable state and are passed explicitly
to Build). -/
structure requestPostDelBuilder where
  group : String
  version : String
  resource : String
  resourceVersion : String
  ns : String
  deleteRatio : ℚ
  maxRetries : Int
deriving DecidableEq

/-- newRequestGetBuilder. -/
def newRequestGetBuilder (src : RequestGet) (resourceVersion : String)
    (maxRetries : Int) : requestGetBuilder :=
  { group := src.gvr.group, version := src.gvr.version,
    resource := src.gvr.resource, ns := src.ns, name := src.name,
    resourceVersion := resourceVersion, maxRetries := maxRetries }

/-- newRequestListBuilder. -/
def newRequestListBuilder (src : RequestList) (resourceVersion : String)
    (maxRetries : Int) : requestListBuilder :=
  { group := src.gvr.group, version := src.gvr.version,
    resource := src.gvr.resource, ns := src.ns, limit := src.limit,
    labelSelector := src.selector, fieldSelector := src.fieldSelector,
    resourceVersion := resourceVersion, maxRetries := maxRetries }

/-- newRequestWatchListBuilder. -/
def newRequestWatchListBuilder (src : RequestWatchList)
    (maxRetries : Int) : requestWatchListBuilder :=
  { group := src.gvr.group, version := src.gvr.version,
    resource := src.gvr.resource, ns := src.ns,
    labelSelector := src.selector, fieldSelector := src.fieldSelector,
    maxRetries := maxRetries }

/-- newRequestGetPodLogBuilder. -/
def newRequestGetPodLogBuilder (src : RequestGetPodLog)
    (maxRetries : Int) : requestGetPodLogBuilder :=
  { ns := src.ns, name := src.name, container := src.container,
    tailLines := src.tailLines, limitBytes := src.limitBytes,
    maxRetries := maxRetries }

/-- newRequestPatchBuilder.  The source discards the ok flag of
GetPatchType, leaving the Go zero value (empty string) on failure. -/
def newRequestPatchBuilder (src : RequestPatch) (resourceVersion : String)
    (maxRetries : Int) : requestPatchBuilder :=
  { group := src.gvr.group, version := src.gvr.version,
    resource := src.gvr.resource, resourceVersion := resourceVersion,
    ns := src.ns, name := src.name, keySpaceSize := src.keySpaceSize,
    patchType := (GetPatchType src.patchType).getD "",
    body := src.body, maxRetries := maxRetries }

/-- newRequestPostDelBuilder (InitCache gives the builder an empty
cache; the cache state is threaded separately here). -/
def newRequestPostDelBuilder (src : RequestPostDel) (resourceVersion : String)
    (maxRetries : Int) : requestPostDelBuilder :=
  { group := src.gvr.group, version := src.gvr.version,
    resource := src.gvr.resource, resourceVersion := resourceVersion,
    ns := src.ns, deleteRatio := src.deleteRatio, maxRetries := maxRetries }

/-- RESTRequestBuilder, the executor interface, as the sum of its
implementations in random.go. -/
inductive RESTRequestBuilder where
  | get (b : requestGetBuilder)
  | list (b : requestListBuilder)
  | watchList (b : requestWatchListBuilder)
  | getPodLog (b : requestGetPodLogBuilder)
  | patch (b : requestPatchBuilder)
  | postDel (b : requestPostDelBuilder)
deriving DecidableEq

/-- CreateRequestBuilder (weighted variant dispatch): the first non-nil
variant in source order selects the builder; stale variants pass
resourceVersion "0", quorum variants pass "". -/
def CreateRequestBuilder (r : WeightedRequest) (maxRetries : Int) :
    Except String RESTRequestBuilder :=
  match r.staleList, r.quorumList, r.watchList, r.staleGet, r.quorumGet,
        r.getPodLog, r.patch, r.postDel with
  | some x, _, _, _, _, _, _, _ =>
    Except.ok (RESTRequestBuilder.list (newRequestListBuilder x "0" maxRetries))
  | none, some x, _, _, _, _, _, _ =>
    Except.ok (RESTRequestBuilder.list (newRequestListBuilder x "" maxRetries))
  | none, none, some x, _, _, _, _, _ =>
    Except.ok (RESTRequestBuilder.watchList (newRequestWatchListBuilder x maxRetries))
  | none, none, none, some x, _, _, _, _ =>
    Except.ok (RESTRequestBuilder.get (newRequestGetBuilder x "0" maxRetries))
  | none, none, none, none, some x, _, _, _ =>
    Except.ok (RESTRequestBuilder.get (newRequestGetBuilder x "" maxRetries))
  | none, none, none, none, none, some x, _, _ =>
    Except.ok (RESTRequestBuilder.getPodLog (newRequestGetPodLogBuilder x maxRetries))
  | none, none, none, none, none, none, some x, _ =>
    Except.ok (RESTRequestBuilder.patch (newRequestPatchBuilder x "" maxRetries))
  | none, none, none, none, none, none, none, some x =>
    Except.ok (RESTRequestBuilder.postDel (newRequestPostDelBuilder x "" maxRetries))
  | none, none, none, none, none, none, none, none =>
    Except.error "unsupported request type"

/-- CreateRequestBuilderFromExact: dispatch on the HTTP method.  The PATCH
branch validates patchType and stores the converted content-type string in
the RequestPatch it builds (as the source does); the POST branch leaves
DeleteRatio at its zero value; the DELETE branch sets DeleteRatio to 1.0.
Neither mutating branch sets KeySpaceSize anywhere. -/
def CreateRequestBuilderFromExact (req : ExactRequest) (maxRetries : Int) :
    Except String RESTRequestBuilder :=
  let resourceVersion := req.resourceVersion
  if req.method = "GET" then
    Except.ok (RESTRequestBuilder.get (newRequestGetBuilder
      { gvr := { group := req.group, version := req.version, resource := req.resource }
        ns := req.ns, name := req.name } resourceVersion maxRetries))
  else if req.method = "LIST" then
    Except.ok (RESTRequestBuilder.list (newRequestListBuilder
      { gvr := { group := req.group, version := req.version, resource := req.resource }
        ns := req.ns, limit := req.limit, selector := req.labelSelector,
        fieldSelector := req.fieldSelector } resourceVersion maxRetries))
  else if req.method = "PATCH" then
    match GetPatchType req.patchType with
    | none => Except.error ("invalid patch type: " ++ req.patchType)
    | some pt =>
      Except.ok (RESTRequestBuilder.patch (newRequestPatchBuilder
        { gvr := { group := req.group, version := req.version, resource := req.resource }
          ns := req.ns, name := req.name, keySpaceSize := 0,
          patchType := pt, body := req.body } resourceVersion maxRetries))
  else if req.method = "POST" then
    Except.ok (RESTRequestBuilder.postDel (newRequestPostDelBuilder
      { gvr := { group := req.group, version := req.version, resource := req.resource }
        ns := req.ns, deleteRatio := 0 } resourceVersion maxRetries))
  else if req.method = "DELETE" then
    Except.ok (RESTRequestBuilder.postDel (newRequestPostDelBuilder
      { gvr := { group := req.group, version := req.version, resource := req.resource }
        ns := req.ns, deleteRatio := 1 } resourceVersion maxRetries))
  else
    Except.error ("unsupported method: " ++ req.method)

/-- The path components every Build composes before the resource segment:
/api/{version} for the core group, /apis/{group}/{version} otherwise, plus
namespaces/{ns} when the namespace is non-empty. -/
def apiPrefix (group version ns : String) : List String :=
  (if group = "" then ["api", version] else ["apis", group, version]) ++
  (if ns ≠ "" then ["namespaces", ns] else [])

/-- A composed REST request as far as the claims are concerned: its
method, its path components and the object name it involves. -/
structure BuiltRequest where
  method : String
  comps : List String
  name : String
deriving DecidableEq

/-- requestPatchBuilder.Build with the random draw as input: the source
calls crypto/rand.Int with modulus keySpaceSize, which panics (none) when
the modulus is not positive; otherwise the request patches
{name}-{draw}. -/
def patchBuild (b : requestPatchBuilder) (draw : Int) : Option BuiltRequest :=
  if b.keySpaceSize ≤ 0 then none
  else
    some
      { method := "PATCH"
        comps := apiPrefix b.group b.version b.ns ++
          [b.resource, b.name ++ "-" ++ toString draw]
        name := b.name ++ "-" ++ toString draw }

/-- The POST arm of requestPostDelBuilder.Build: increment the atomic
counter, derive the unique name from the nanosecond timestamp and the
counter, and compose the POST.  Returns the request, the unchanged cache
and the new counter. -/
def postDelBuildPost (b : requestPostDelBuilder) (comps : List String)
    (cache : List String) (ctr ts : Int) : BuiltRequest × List String × Int :=
  let ctr2 := ctr + 1
  let name := toString ts ++ "-" ++ toString ctr2
  ({ method := "POST", comps := comps ++ [b.resource], name := name }, cache, ctr2)

/-- The delete decision of Build: a draw n in [0, 1000) divided by 1000 is
strictly below deleteRatio. -/
def postDelShouldDelete (b : requestPostDelBuilder) (n : Int) : Bool :=
  (n : ℚ) / 1000 < b.deleteRatio

/-- requestPostDelBuilder.Build: when the delete decision fires and the
LIFO cache is non-empty, pop a name and compose the DELETE; otherwise fall
through to the POST arm.  Inputs: the cache content, the counter, the draw
n in [0, 1000) and the clock reading ts. -/
def postDelBuild (b : requestPostDelBuilder) (cache : List String)
    (ctr : Int) (n ts : Int) : BuiltRequest × List String × Int :=
  let comps := apiPrefix b.group b.version b.ns
  if postDelShouldDelete b n then
    match cache with
    | name :: rest =>
      ({ method := "DELETE", comps := comps ++ [b.resource, name], name := name },
        rest, ctr)
    | [] => postDelBuildPost b comps cache ctr ts
  else postDelBuildPost b comps cache ctr ts

/-- PostDelDiscardRequester.Do, cache effect: push the name after a
successful POST; push the popped name back after a failed DELETE. -/
def postDelDo (req : BuiltRequest) (cache : List String) (ok : Bool) : List String :=
  if req.method = "POST" then (if ok then req.name :: cache else cache)
  else if req.method = "DELETE" then (if ok then cache else req.name :: cache)
  else cache

/-! ## PostDel trace state machine (for the cache invariant, claim C1).
The cache is Modelled from the spec: the concurrent LIFO used by the
builder (InitCache / Push / Pop) has no implementation under src/; per the
spec it is an ordered LIFO whose Pop returns ok=false when empty, embedded
as a Lean list with head as top.  A trace is a sequence of completed
Build/Do pairs, each carrying its random draw, its clock reading and
whether the request succeeded. -/

/-- one completed Build/Do pair: the delete-decision draw n, the clock
reading ts and the outcome ok. -/
structure PostDelOp where
  n : Int
  ts : Int
  ok : Bool
deriving DecidableEq

/-- Trace state: the cache, the atomic counter, and the spec-side counts
of successful POSTs, successful DELETEs and failed DELETEs (which are
always delete attempts that popped the cache). -/
structure PostDelTraceState where
  cache : List String
  ctr : Int
  posts : Nat
  delSucc : Nat
  delFail : Nat
deriving DecidableEq

/-- One completed Build/Do pair applied to the trace state. -/
def postDelStep (b : requestPostDelBuilder) (st : PostDelTraceState)
    (op : PostDelOp) : PostDelTraceState :=
  let r := postDelBuild b st.cache st.ctr op.n op.ts
  let cache2 := postDelDo r.1 r.2.1 op.ok
  { cache := cache2
    ctr := r.2.2
    posts := if r.1.method = "POST" ∧ op.ok then st.posts + 1 else st.posts
    delSucc := if r.1.method = "DELETE" ∧ op.ok then st.delSucc + 1 else st.delSucc
    delFail := if r.1.method = "DELETE" ∧ ¬ op.ok then st.delFail + 1 else st.delFail }

/-- The builder starts with an empty cache and a zero counter. -/
def postDelInit : PostDelTraceState :=
  { cache := [], ctr := 0, posts := 0, delSucc := 0, delFail := 0 }

/-- A whole trace of completed Build/Do pairs. -/
def postDelRun (b : requestPostDelBuilder) (ops : List PostDelOp) : PostDelTraceState :=
  ops.foldl (postDelStep b) postDelInit

/-! ## Theorems for claim C1 -/

/-- PostDel builder used by the C1 counterexample trace, deleteRatio
0.5 (the largest value validation accepts). -/
def bHalf : requestPostDelBuilder :=
  newRequestPostDelBuilder
    { gvr := { group := "", version := "v1", resource := "configmaps" }
      ns := "default"
      deleteRatio := 1/2 } "" 0

/-- The C1 counterexample trace: a successful POST (draw 999 keeps the
delete branch off), then a failed DELETE (draw 0 turns it on). -/
def opsPostThenFailedDel : List PostDelOp :=
  [{ n := 999, ts := 100, ok := true }, { n := 0, ts := 101, ok := false }]

/-- C1 counterexample: after one successful POST and one failed DELETE
(whose popped name is pushed back), the cache holds 1 name, but the
claimed formula gives successful POSTs − successful DELETEs + failed
DELETEs = 1 − 0 + 1 = 2.  A failed DELETE leaves the cache unchanged, so
adding it to the count is wrong. -/
theorem C1_counterexample :
    (postDelRun bHalf opsPostThenFailedDel).cache.length = 1 ∧
    (postDelRun bHalf opsPostThenFailedDel).posts = 1 ∧
    (postDelRun bHalf opsPostThenFailedDel).delSucc = 0 ∧
    (postDelRun bHalf opsPostThenFailedDel).delFail = 1 ∧
    ¬ (((postDelRun bHalf opsPostThenFailedDel).cache.length : Int) =
        ((postDelRun bHalf opsPostThenFailedDel).posts : Int) -
        ((postDelRun bHalf opsPostThenFailedDel).delSucc : Int) +
        ((postDelRun bHalf opsPostThenFailedDel).delFail : Int)) := by
  have h999 : postDelShouldDelete bHalf 999 = false := by
    simp only [postDelShouldDelete, bHalf, newRequestPostDelBuilder,
      decide_eq_false_iff_not]
    norm_num
  have h0 : postDelShouldDelete bHalf 0 = true := by
    simp only [postDelShouldDelete, bHalf, newRequestPostDelBuilder,
      decide_eq_true_eq]
    norm_num
  simp only [postDelRun, opsPostThenFailedDel, List.foldl_cons, List.foldl_nil,
    postDelStep, postDelBuild, postDelBuildPost, postDelDo, postDelInit,
    h999, h0]
  simp

theorem postDelStep_inv (b : requestPostDelBuilder) (st : PostDelTraceState)
    (op : PostDelOp)
    (h : (st.cache.length : Int) = (st.posts : Int) - (st.delSucc : Int)) :
    (((postDelStep b st op).cache.length : Int) =
      ((postDelStep b st op).posts : Int) - ((postDelStep b st op).delSucc : Int)) := by
  by_cases hd : postDelShouldDelete b op.n
  · cases hc : st.cache with
    | nil =>
      rw [hc] at h
      norm_num at h
      by_cases hok : op.ok <;>
        simp [postDelStep, postDelBuild, postDelBuildPost, postDelDo,
          hd, hc, hok] <;>
        omega
    | cons x rest =>
      rw [hc] at h
      simp only [List.length_cons] at h
      push_cast at h
      by_cases hok : op.ok <;>
        simp [postDelStep, postDelBuild, postDelBuildPost, postDelDo,
          hd, hc, hok] <;>
        omega
  · by_cases hok : op.ok <;>
      simp [postDelStep, postDelBuild, postDelBuildPost, postDelDo, hd, hok] <;>
      omega

theorem postDelRun_inv_aux (b : requestPostDelBuilder) (ops : List PostDelOp) :
    ∀ st : PostDelTraceState,
      (st.cache.length : Int) = (st.posts : Int) - (st.delSucc : Int) →
      (((ops.foldl (postDelStep b) st).cache.length : Int) =
        ((ops.foldl (postDelStep b) st).posts : Int) -
        ((ops.foldl (postDelStep b) st).delSucc : Int)) := by
  induction ops with
  | nil => intro st h; exact h
  | cons op rest ih =>
    intro st h
    exact ih (postDelStep b st op) (postDelStep_inv b st op h)

/-- C1 amended: after any trace of completed Build/Do pairs, the number of
names in the cache equals successful POSTs − successful DELETEs (a failed
DELETE pushes the popped name back, so it leaves the cache unchanged and
does not enter the count), and that quantity is never negative. -/
theorem C1_cache_invariant (b : requestPostDelBuilder) (ops : List PostDelOp) :
    ((postDelRun b ops).cache.length : Int) =
      ((postDelRun b ops).posts : Int) - ((postDelRun b ops).delSucc : Int) ∧
    0 ≤ ((postDelRun b ops).posts : Int) - ((postDelRun b ops).delSucc : Int) := by
  unfold postDelRun
  have h := postDelRun_inv_aux b ops postDelInit (by simp [postDelInit])
  refine ⟨h, ?_⟩
  rw [← h]
  omega

/-! ## Theorems for claim C6 -/

/-- C6: the exact-request factory turns method DELETE into a PostDel
builder with deleteRatio 1.0, and such a builder composes a DELETE for
every draw n in [0, 1000) whenever the cache is non-empty (n/1000 < 1.0
always holds), falling through to POST when the cache is empty. -/
theorem C6_exact_delete_builder (req : ExactRequest) (maxRetries : Int)
    (hm : req.method = "DELETE") :
    ∃ b : requestPostDelBuilder,
      CreateRequestBuilderFromExact req maxRetries =
        Except.ok (RESTRequestBuilder.postDel b) ∧
      b.deleteRatio = 1 ∧
      ∀ (cache : List String) (ctr n ts : Int), 0 ≤ n → n < 1000 →
        (postDelBuild b cache ctr n ts).1.method =
          (if cache = [] then "POST" else "DELETE") := by
  refine ⟨newRequestPostDelBuilder
    { gvr := { group := req.group, version := req.version, resource := req.resource }
      ns := req.ns, deleteRatio := 1 } req.resourceVersion maxRetries, ?_, rfl, ?_⟩
  · simp [CreateRequestBuilderFromExact, hm]
  · intro cache ctr n ts _ hlt
    have hq : ((n : ℚ) / 1000) < 1 := by
      rw [div_lt_one (by norm_num)]
      exact_mod_cast hlt
    have hsd : postDelShouldDelete
        (newRequestPostDelBuilder
          { gvr := { group := req.group, version := req.version,
                     resource := req.resource }
            ns := req.ns, deleteRatio := 1 } req.resourceVersion maxRetries) n = true := by
      simp [postDelShouldDelete, newRequestPostDelBuilder]
      exact hq
    cases cache with
    | nil => simp [postDelBuild, hsd, postDelBuildPost]
    | cons x rest => simp [postDelBuild, hsd]

/-- Concrete exact DELETE request used by the C6 witness. -/
def delReqW : ExactRequest :=
  { method := "DELETE"
    group := ""
    version := "v1"
    resource := "pods"
    ns := "default"
    name := ""
    body := ""
    patchType := ""
    labelSelector := ""
    fieldSelector := ""
    limit := 0
    resourceVersion := "" }

/-- Witness for C6 at the concrete DELETE request delReqW. -/
theorem C6_exact_delete_builder_witness :
    delReqW.method = "DELETE" ∧
    (∃ b : requestPostDelBuilder,
      CreateRequestBuilderFromExact delReqW 2 =
        Except.ok (RESTRequestBuilder.postDel b) ∧
      b.deleteRatio = 1 ∧
      ∀ (cache : List String) (ctr n ts : Int), 0 ≤ n → n < 1000 →
        (postDelBuild b cache ctr n ts).1.method =
          (if cache = [] then "POST" else "DELETE")) :=
  ⟨rfl, C6_exact_delete_builder delReqW 2 rfl⟩

/-! ## Theorems for claim C9 -/

/-- C9: for an exact PATCH request with a valid patchType, the factory
builds a patch builder whose keySpaceSize is 0 (no branch of the factory
sets it, and RequestPatch.Validate never constrains it), so Build reaches
crypto/rand.Int with modulus 0 and panics on every draw: building an exact
PATCH request is not a total operation. -/
theorem C9_exact_patch_panics (req : ExactRequest) (maxRetries : Int)
    (hm : req.method = "PATCH") (hpt : (GetPatchType req.patchType).isSome) :
    (∃ b : requestPatchBuilder,
      CreateRequestBuilderFromExact req maxRetries =
        Except.ok (RESTRequestBuilder.patch b) ∧
      b.keySpaceSize = 0 ∧
      ∀ draw : Int, patchBuild b draw = none) ∧
    ∀ (r : RequestPatch) (k : Int),
      RequestPatch.Validate { r with keySpaceSize := k } = RequestPatch.Validate r := by
  constructor
  · obtain ⟨pt, hpt'⟩ := Option.isSome_iff_exists.mp hpt
    refine ⟨newRequestPatchBuilder
      { gvr := { group := req.group, version := req.version, resource := req.resource }
        ns := req.ns, name := req.name, keySpaceSize := 0,
        patchType := pt, body := req.body } req.resourceVersion maxRetries, ?_, rfl, ?_⟩
    · simp [CreateRequestBuilderFromExact, hm, hpt']
    · intro draw
      simp [patchBuild, newRequestPatchBuilder]
  · intro r k
    rfl

/-- Concrete exact PATCH request used by the C9 witness. -/
def patchReqW : ExactRequest :=
  { method := "PATCH"
    group := ""
    version := "v1"
    resource := "pods"
    ns := "default"
    name := "p"
    body := "[]"
    patchType := "json"
    labelSelector := ""
    fieldSelector := ""
    limit := 0
    resourceVersion := "" }

/-- Witness for C9 at the concrete PATCH request patchReqW. -/
theorem C9_exact_patch_panics_witness :
    patchReqW.method = "PATCH" ∧
    (GetPatchType patchReqW.patchType).isSome ∧
    ((∃ b : requestPatchBuilder,
      CreateRequestBuilderFromExact patchReqW 1 =
        Except.ok (RESTRequestBuilder.patch b) ∧
      b.keySpaceSize = 0 ∧
      ∀ draw : Int, patchBuild b draw = none) ∧
    ∀ (r : RequestPatch) (k : Int),
      RequestPatch.Validate { r with keySpaceSize := k } = RequestPatch.Validate r) :=
  ⟨rfl, rfl, C9_exact_patch_panics patchReqW 1 rfl (by decide)⟩

/-! ## Multi-spec runner aggregation (runner command).  The per-spec
results come from Schedule, which is external to the aggregation logic;
executeSpecs is embedded from the point where those results exist.  Go
maps keyed by URL are embedded as finitely-supported functions with
default []; the Go loop that appends a result's latency vectors key by key
is then pointwise concatenation (absent keys contribute the empty
vector). -/

/-- ResponseError.  Modelled from the spec: the metrics package that
declares the error record is not under src/; aggregation only appends the
records, so the record is opaque here. -/
structure ResponseError where
  record : String
deriving DecidableEq

/-- Result from the request package: response stats plus duration (int64
nanoseconds) and total. -/
structure Result where
  errors : List ResponseError
  latenciesByURL : String → List ℚ
  totalReceivedBytes : Int
  duration : Int
  total : Int

/-- Sum of a list of Go integers. -/
def sumInt (l : List Int) : Int := l.foldl (· + ·) 0

theorem sumInt_cons (x : Int) (l : List Int) : sumInt (x :: l) = x + sumInt l := by
  simp only [sumInt, List.foldl_cons]
  rw [foldl_add_shift l (0 + x)]
  ring

/-- The zero-valued aggregate the runner starts from (empty error list,
empty latency map, zero bytes and total). -/
def emptyAggregated : Result :=
  { errors := [], latenciesByURL := fun _ => [], totalReceivedBytes := 0,
    duration := 0, total := 0 }

/-- aggregateResults from the runner: fold the per-spec results in order,
appending error records, concatenating per-URL latency vectors, and
summing bytes and totals.  Duration is left at zero here; executeSpecs
overwrites it. -/
def aggregateResults (results : List Result) : Result :=
  results.foldl
    (fun agg r =>
      { errors := agg.errors ++ r.errors
        latenciesByURL := fun u => agg.latenciesByURL u ++ r.latenciesByURL u
        totalReceivedBytes := agg.totalReceivedBytes + r.totalReceivedBytes
        duration := agg.duration
        total := agg.total + r.total })
    emptyAggregated

/-- executeSpecs from the point where the per-spec Schedule results exist:
an empty spec list is an error; otherwise the per-spec results are
returned together with the aggregate, whose duration is the sum of
per-spec durations. -/
def executeSpecs (results : List Result) : Except String (List Result × Result) :=
  if results.isEmpty then Except.error "no specs to execute"
  else
    Except.ok (results,
      { aggregateResults results with
          duration := sumInt (results.map (fun r => r.duration)) })

theorem aggregateResults_fold_spec (results : List Result) :
    ∀ agg0 : Result,
      ((results.foldl
        (fun agg r =>
          { errors := agg.errors ++ r.errors
            latenciesByURL := fun u => agg.latenciesByURL u ++ r.latenciesByURL u
            totalReceivedBytes := agg.totalReceivedBytes + r.totalReceivedBytes
            duration := agg.duration
            total := agg.total + r.total })
        agg0).errors = agg0.errors ++ (results.map (fun r => r.errors)).flatten) ∧
      (∀ u, (results.foldl
        (fun agg r =>
          { errors := agg.errors ++ r.errors
            latenciesByURL := fun u => agg.latenciesByURL u ++ r.latenciesByURL u
            totalReceivedBytes := agg.totalReceivedBytes + r.totalReceivedBytes
            duration := agg.duration
            total := agg.total + r.total })
        agg0).latenciesByURL u =
          agg0.latenciesByURL u ++ (results.map (fun r => r.latenciesByURL u)).flatten) ∧
      ((results.foldl
        (fun agg r =>
          { errors := agg.errors ++ r.errors
            latenciesByURL := fun u => agg.latenciesByURL u ++ r.latenciesByURL u
            totalReceivedBytes := agg.totalReceivedBytes + r.totalReceivedBytes
            duration := agg.duration
            total := agg.total + r.total })
        agg0).totalReceivedBytes =
          agg0.totalReceivedBytes + sumInt (results.map (fun r => r.totalReceivedBytes))) ∧
      ((results.foldl
        (fun agg r =>
          { errors := agg.errors ++ r.errors
            latenciesByURL := fun u => agg.latenciesByURL u ++ r.latenciesByURL u
            totalReceivedBytes := agg.totalReceivedBytes + r.totalReceivedBytes
            duration := agg.duration
            total := agg.total + r.total })
        agg0).total = agg0.total + sumInt (results.map (fun r => r.total))) ∧
      ((results.foldl
        (fun agg r =>
          { errors := agg.errors ++ r.errors
            latenciesByURL := fun u => agg.latenciesByURL u ++ r.latenciesByURL u
            totalReceivedBytes := agg.totalReceivedBytes + r.totalReceivedBytes
            duration := agg.duration
            total := agg.total + r.total })
        agg0).duration = agg0.duration) := by
  induction results with
  | nil => intro agg0; simp [sumInt]
  | cons r rest ih =>
    intro agg0
    obtain ⟨he, hl, hb, ht, hd⟩ := ih
      { errors := agg0.errors ++ r.errors
        latenciesByURL := fun u => agg0.latenciesByURL u ++ r.latenciesByURL u
        totalReceivedBytes := agg0.totalReceivedBytes + r.totalReceivedBytes
        duration := agg0.duration
        total := agg0.total + r.total }
    refine ⟨?_, ?_, ?_, ?_, ?_⟩
    · simp only [List.foldl_cons, List.map_cons, List.flatten]
      rw [he]
      simp [List.append_assoc]
    · intro u
      simp only [List.foldl_cons, List.map_cons, List.flatten]
      rw [hl u]
      simp [List.append_assoc]
    · simp only [List.foldl_cons, List.map_cons]
      rw [hb, sumInt_cons]
      ring
    · simp only [List.foldl_cons, List.map_cons]
      rw [ht, sumInt_cons]
      ring
    · simp only [List.foldl_cons]
      rw [hd]

/-! ## Theorems for claim C8 -/

/-- C8: for every non-empty list of per-spec results, the multi-spec
runner returns an aggregate whose error list is the concatenation of the
per-spec error lists in spec order, whose per-URL latency map is the
concatenation of that URL's per-spec latency vectors in spec order, and
whose bytes, total and duration are the per-spec sums. -/
theorem C8_aggregate_results (results : List Result) (hne : results ≠ []) :
    ∃ agg : Result,
      executeSpecs results = Except.ok (results, agg) ∧
      agg.errors = (results.map (fun r => r.errors)).flatten ∧
      (∀ u, agg.latenciesByURL u = (results.map (fun r => r.latenciesByURL u)).flatten) ∧
      agg.totalReceivedBytes = sumInt (results.map (fun r => r.totalReceivedBytes)) ∧
      agg.total = sumInt (results.map (fun r => r.total)) ∧
      agg.duration = sumInt (results.map (fun r => r.duration)) := by
  have hie : results.isEmpty = false := by
    cases results with
    | nil => exact absurd rfl hne
    | cons a l => rfl
  obtain ⟨he, hl, hb, ht, _⟩ := aggregateResults_fold_spec results emptyAggregated
  refine ⟨{ aggregateResults results with
      duration := sumInt (results.map (fun r => r.duration)) }, ?_, ?_, ?_, ?_, ?_, rfl⟩
  · simp [executeSpecs, hie]
  · simpa [aggregateResults, emptyAggregated] using he
  · intro u
    simpa [aggregateResults, emptyAggregated] using hl u
  · simpa [aggregateResults, emptyAggregated] using hb
  · simpa [aggregateResults, emptyAggregated] using ht

/-- Per-spec result used by the C8 witness. -/
def resW : Result :=
  { errors := [{ record := "e1" }]
    latenciesByURL := fun u => if u = "u1" then [1/2] else []
    totalReceivedBytes := 8
    duration := 5
    total := 3 }

/-- Witness for C8 at the one-element result list [resW]. -/
theorem C8_aggregate_results_witness :
    ([resW] ≠ ([] : List Result)) ∧
    (∃ agg : Result,
      executeSpecs [resW] = Except.ok ([resW], agg) ∧
      agg.errors = (([resW] : List Result).map (fun r => r.errors)).flatten ∧
      (∀ u, agg.latenciesByURL u =
        (([resW] : List Result).map (fun r => r.latenciesByURL u)).flatten) ∧
      agg.totalReceivedBytes =
        sumInt (([resW] : List Result).map (fun r => r.totalReceivedBytes)) ∧
      agg.total = sumInt (([resW] : List Result).map (fun r => r.total)) ∧
      agg.duration = sumInt (([resW] : List Result).map (fun r => r.duration))) :=
  ⟨List.cons_ne_nil _ _, C8_aggregate_results [resW] (List.cons_ne_nil _ _)⟩

/-! ## Masked URL (BaseRequester.MaskedURL).  The source rewrites the
path component of the request URL with path.Join(path.Dir(u.Path),
":name") for DELETE and PATCH and leaves other methods untouched.  The Go
standard path functions are modelled on char lists: Clean via
split-on-slash, a dotdot-aware element stack and rejoining; Dir as Clean
of everything up to the final slash; Join as Clean of the non-empty
arguments joined by slashes.  A URL is represented by its path (MaskedURL
touches nothing else). -/

/-- Splits a char list on every slash; successive slashes and boundary
slashes yield empty segments, as in Go strings.Split. -/
def splitSlash : List Char → List (List Char)
  | [] => [[]]
  | c :: r =>
    if c = '/' then [] :: splitSlash r
    else
      match splitSlash r with
      | s :: ss => (c :: s) :: ss
      | [] => [[c]]

/-- Joins segments with slashes (inverse of splitSlash on slash-free
segments). -/
def joinSlash : List (List Char) → List Char
  | [] => []
  | [a] => a
  | a :: b :: rest => a ++ '/' :: joinSlash (b :: rest)

/-- The element loop of Go path.Clean: skip empty and dot elements, let a
dotdot pop the stack (or survive at the front of an unrooted path, or
vanish at the root), push everything else. -/
def cleanElems (rooted : Bool) : List (List Char) → List (List Char) → List (List Char)
  | [], acc => acc.reverse
  | e :: rest, acc =>
    if e = [] ∨ e = ['.'] then cleanElems rooted rest acc
    else if e = ['.', '.'] then
      match acc with
      | [] => if rooted then cleanElems rooted rest [] else cleanElems rooted rest [e]
      | x :: acc2 =>
        if x = ['.', '.'] then cleanElems rooted rest (e :: acc)
        else cleanElems rooted rest acc2
    else cleanElems rooted rest (e :: acc)

/-- Tests whether the path starts with a slash. -/
def isRooted : List Char → Bool
  | '/' :: _ => true
  | _ => false

/-- Go path.Clean on char lists. -/
def goCleanL (cs : List Char) : List Char :=
  if cs = [] then ['.']
  else
    let body := joinSlash (cleanElems (isRooted cs) (splitSlash cs) [])
    if isRooted cs then '/' :: body
    else if body = [] then ['.'] else body

/-- Everything up to and including the final slash (the dir part of Go
path.Split); empty when there is no slash. -/
def dirPart (cs : List Char) : List Char :=
  (List.dropWhile (fun c => c ≠ '/') cs.reverse).reverse

/-- Go path.Dir on char lists: Clean of the dir part. -/
def goDirL (cs : List Char) : List Char := goCleanL (dirPart cs)

/-- Go path.Join on char lists: drop empty arguments, join the rest with
slashes and Clean; all-empty input yields the empty path. -/
def goJoinL (elems : List (List Char)) : List Char :=
  let es := elems.filter (fun e => ¬ e.isEmpty)
  if es.isEmpty then [] else goCleanL (joinSlash es)

/-- BaseRequester.MaskedURL on the path component: DELETE and PATCH
replace the path with Join(Dir(path), ":name"); other methods return the
URL unchanged. -/
def maskedURLPath (method : String) (p : String) : String :=
  if method = "DELETE" ∨ method = "PATCH" then
    String.mk (goJoinL [goDirL p.data, (":name").data])
  else p

/-- The canonical absolute path with the given segments, as AbsPath
composes it from the builder path components. -/
def absPath (segs : List String) : String :=
  String.mk ('/' :: joinSlash (segs.map String.data))

/-- A well-formed path segment: non-empty, slash-free, and not a dot
element. -/
def vSeg (c : List Char) : Prop :=
  c ≠ [] ∧ '/' ∉ c ∧ c ≠ ['.'] ∧ c ≠ ['.', '.']

instance vSeg.instDecidable (c : List Char) : Decidable (vSeg c) := by
  unfold vSeg
  infer_instance

theorem splitSlash_no_slash (c : List Char) (h : '/' ∉ c) : splitSlash c = [c] := by
  induction c with
  | nil => rfl
  | cons x r ih =>
    have hx : ¬ x = '/' := fun he => h (by simp [he])
    have hr : '/' ∉ r := fun he => h (by simp [he])
    simp [splitSlash, hx, ih hr]

theorem splitSlash_append (a : List Char) (t : List Char) (h : '/' ∉ a) :
    splitSlash (a ++ '/' :: t) = a :: splitSlash t := by
  induction a with
  | nil => simp [splitSlash]
  | cons x r ih =>
    have hx : ¬ x = '/' := fun he => h (by simp [he])
    have hr : '/' ∉ r := fun he => h (by simp [he])
    simp [splitSlash, hx, ih hr]

theorem splitSlash_join (L : List (List Char)) (h : ∀ c ∈ L, '/' ∉ c)
    (hne : L ≠ []) (t : List Char) :
    splitSlash (joinSlash L ++ '/' :: t) = L ++ splitSlash t := by
  induction L with
  | nil => exact absurd rfl hne
  | cons a rest ih =>
    cases rest with
    | nil =>
      simp only [joinSlash]
      rw [splitSlash_append a t (h a (by simp))]
      rfl
    | cons b rest2 =>
      simp only [joinSlash]
      rw [List.append_assoc, List.cons_append]
      rw [splitSlash_append a _ (h a (by simp))]
      rw [ih (fun c hc => h c (by simp [hc])) (by simp)]
      rfl

theorem splitSlash_join_full (L : List (List Char)) (h : ∀ c ∈ L, '/' ∉ c)
    (hne : L ≠ []) : splitSlash (joinSlash L) = L := by
  induction L with
  | nil => exact absurd rfl hne
  | cons a rest ih =>
    cases rest with
    | nil => simp only [joinSlash]; exact splitSlash_no_slash a (h a (by simp))
    | cons b rest2 =>
      simp only [joinSlash]
      rw [splitSlash_append a _ (h a (by simp))]
      rw [ih (fun c hc => h c (by simp [hc])) (by simp)]

theorem cleanElems_valid (L : List (List Char)) :
    ∀ acc : List (List Char),
      (∀ e ∈ L, e = [] ∨ (e ≠ ['.'] ∧ e ≠ ['.', '.'])) →
      cleanElems true L acc = acc.reverse ++ L.filter (fun e => ¬ e.isEmpty) := by
  induction L with
  | nil => intro acc _; simp [cleanElems]
  | cons e rest ih =>
    intro acc h
    rcases h e (by simp) with he | ⟨hd1, hd2⟩
    · subst he
      simp only [cleanElems, List.filter]
      rw [ih acc (fun x hx => h x (by simp [hx]))]
      simp
    · have hne : e ≠ [] ∨ True := Or.inr trivial
      by_cases hee : e = []
      · subst hee
        simp only [cleanElems, List.filter]
        rw [ih acc (fun x hx => h x (by simp [hx]))]
        simp
      · have hcond : ¬ (e = [] ∨ e = ['.']) := by
          intro hc
          rcases hc with hc | hc
          · exact hee hc
          · exact hd1 hc
        simp only [cleanElems, hcond, if_false, hd2, if_neg hd2]
        rw [ih (e :: acc) (fun x hx => h x (by simp [hx]))]
        have : (e :: rest).filter (fun e => ¬ e.isEmpty) =
            e :: rest.filter (fun e => ¬ e.isEmpty) := by
          simp [List.filter, hee]
        rw [this]
        simp

theorem goCleanL_canonical (segs : List (List Char)) (h : ∀ c ∈ segs, vSeg c)
    (hne : segs ≠ []) :
    goCleanL ('/' :: joinSlash segs) = '/' :: joinSlash segs := by
  have hnos : ∀ c ∈ segs, '/' ∉ c := fun c hc => (h c hc).2.1
  have hroot : isRooted ('/' :: joinSlash segs) = true := rfl
  unfold goCleanL
  rw [if_neg (by simp)]
  simp only [hroot, if_true]
  have hsplit : splitSlash ('/' :: joinSlash segs) = [] :: segs := by
    have : splitSlash ('/' :: joinSlash segs) = [] :: splitSlash (joinSlash segs) := by
      simp [splitSlash]
    rw [this, splitSlash_join_full segs hnos hne]
  rw [hsplit]
  rw [cleanElems_valid ([] :: segs) []
    (by
      intro e he
      rcases List.mem_cons.mp he with he | he
      · exact Or.inl he
      · exact Or.inr ⟨(h e he).2.2.1, (h e he).2.2.2⟩)]
  have hfil : ([] :: segs).filter (fun e => ¬ e.isEmpty) = segs := by
    simp only [List.filter]
    rw [List.filter_eq_self.mpr]
    · simp
    · intro a ha
      have := (h a ha).1
      simp [List.isEmpty_iff, this]
  rw [hfil]
  simp

theorem dropWhile_append_of_all {α : Type} (p : α → Bool) (xs ys : List α)
    (h : ∀ x ∈ xs, p x = true) :
    List.dropWhile p (xs ++ ys) = List.dropWhile p ys := by
  induction xs with
  | nil => rfl
  | cons x r ih =>
    simp only [List.cons_append, List.dropWhile]
    rw [h x (by simp)]
    exact ih (fun x hx => h x (by simp [hx]))

theorem dirPart_append (xs c : List Char) (h : '/' ∉ c) :
    dirPart (xs ++ '/' :: c) = xs ++ ['/'] := by
  unfold dirPart
  rw [List.reverse_append, List.reverse_cons]
  rw [List.append_assoc]
  rw [dropWhile_append_of_all _ c.reverse _
    (by
      intro x hx
      have : x ∈ c := List.mem_reverse.mp hx
      simp only [decide_eq_true_eq]
      intro he
      exact h (he ▸ this))]
  simp only [List.singleton_append, List.dropWhile]
  norm_num

theorem joinSlash_cons2 (a b : List Char) (rest : List (List Char)) :
    joinSlash (a :: b :: rest) = a ++ '/' :: joinSlash (b :: rest) := rfl

theorem joinSlash_concat (L : List (List Char)) (hne : L ≠ []) (c : List Char) :
    joinSlash (L ++ [c]) = joinSlash L ++ '/' :: c := by
  induction L with
  | nil => exact absurd rfl hne
  | cons a rest ih =>
    cases rest with
    | nil => simp [joinSlash]
    | cons b rest2 =>
      have ih2 := ih (by simp)
      simp only [List.cons_append] at ih2 ⊢
      rw [joinSlash_cons2 a b (rest2 ++ [c]), joinSlash_cons2 a b rest2, ih2]
      simp [List.append_assoc]

theorem goCleanL_trailing (segs : List (List Char)) (h : ∀ c ∈ segs, vSeg c)
    (hne : segs ≠ []) :
    goCleanL (('/' :: joinSlash segs) ++ ['/']) = '/' :: joinSlash segs := by
  have hnos : ∀ c ∈ segs, '/' ∉ c := fun c hc => (h c hc).2.1
  have hshape : ('/' :: joinSlash segs) ++ ['/'] =
      '/' :: (joinSlash segs ++ '/' :: []) := by simp
  rw [hshape]
  unfold goCleanL
  rw [if_neg (by simp)]
  have hroot : isRooted ('/' :: (joinSlash segs ++ '/' :: [])) = true := rfl
  simp only [hroot, if_true]
  have hsplit : splitSlash ('/' :: (joinSlash segs ++ '/' :: [])) =
      [] :: (segs ++ [[]]) := by
    have h1 : splitSlash ('/' :: (joinSlash segs ++ '/' :: [])) =
        [] :: splitSlash (joinSlash segs ++ '/' :: []) := by
      simp [splitSlash]
    rw [h1, splitSlash_join segs hnos hne []]
    rfl
  rw [hsplit]
  rw [cleanElems_valid ([] :: (segs ++ [[]])) []
    (by
      intro e he
      rcases List.mem_cons.mp he with he | he
      · exact Or.inl he
      · rcases List.mem_append.mp he with he | he
        · exact Or.inr ⟨(h e he).2.2.1, (h e he).2.2.2⟩
        · simp at he
          exact Or.inl he)]
  have hfil : (([] :: (segs ++ [[]])).filter (fun e => ¬ e.isEmpty)) = segs := by
    simp only [List.filter_append, List.filter]
    rw [List.filter_eq_self.mpr]
    · simp
    · intro a ha
      have := (h a ha).1
      simp [List.isEmpty_iff, this]
  rw [hfil]
  simp

/-! ## Theorems for claim C7 -/

/-- C7: for a request whose URL path is a canonical absolute path (as
AbsPath builds it from well-formed segments), MaskedURL replaces the final
path segment by the literal ":name" exactly when the method is DELETE or
PATCH; every other method returns the raw URL unchanged (for any path). -/
theorem C7_masked_url (method : String) (segs : List String)
    (hne : segs ≠ []) (hv : ∀ s ∈ segs, vSeg s.data) :
    ((method = "DELETE" ∨ method = "PATCH") →
      maskedURLPath method (absPath segs) =
        absPath (segs.dropLast ++ [":name"])) ∧
    (¬ (method = "DELETE" ∨ method = "PATCH") →
      ∀ p, maskedURLPath method p = p) := by
  constructor
  · intro hm
    unfold maskedURLPath
    rw [if_pos hm]
    obtain ⟨init, last, rfl⟩ : ∃ init last, segs = init ++ [last] := by
      rcases List.eq_nil_or_concat segs with h | ⟨init, last, h⟩
      · exact absurd h hne
      · exact ⟨init, last, by simpa [List.concat_eq_append] using h⟩
    have hlast : vSeg last.data := hv last (by simp)
    cases init with
    | nil =>
      have hdata : (absPath ([] ++ [last])).data = '/' :: last.data := rfl
      rw [hdata]
      have hdir : goDirL ('/' :: last.data) = ['/'] := by
        unfold goDirL
        have : ('/' :: last.data) = [] ++ '/' :: last.data := rfl
        rw [this, dirPart_append [] last.data hlast.2.1]
        rfl
      rw [hdir]
      rfl
    | cons b init2 =>
      have hinitne : ((b :: init2).map String.data) ≠ [] := by simp
      have hvinit : ∀ c ∈ (b :: init2).map String.data, vSeg c := by
        intro c hc
        obtain ⟨s, hs, rfl⟩ := List.mem_map.mp hc
        exact hv s (List.mem_append.mpr (Or.inl hs))
      have hdata : (absPath ((b :: init2) ++ [last])).data =
          ('/' :: joinSlash ((b :: init2).map String.data)) ++ '/' :: last.data := by
        show ('/' :: joinSlash (((b :: init2) ++ [last]).map String.data)) = _
        simp only [List.map_append]
        rw [show List.map String.data [last] = [last.data] from rfl]
        rw [joinSlash_concat ((b :: init2).map String.data)
          (by simp) last.data]
        simp
      rw [hdata]
      have hdir : goDirL (('/' :: joinSlash ((b :: init2).map String.data)) ++
          '/' :: last.data) = '/' :: joinSlash ((b :: init2).map String.data) := by
        unfold goDirL
        rw [dirPart_append _ last.data hlast.2.1]
        exact goCleanL_trailing ((b :: init2).map String.data) hvinit hinitne
      rw [hdir]
      have hjoin : goJoinL ['/' :: joinSlash ((b :: init2).map String.data),
          (":name").data] =
          '/' :: joinSlash (((b :: init2).map String.data) ++ [(":name").data]) := by
        unfold goJoinL
        have hfil : (['/' :: joinSlash ((b :: init2).map String.data),
            (":name").data].filter (fun e => ¬ e.isEmpty)) =
            ['/' :: joinSlash ((b :: init2).map String.data), (":name").data] := by
          simp [List.filter]
        rw [hfil]
        rw [if_neg (by simp)]
        have hshape : joinSlash ['/' :: joinSlash ((b :: init2).map String.data),
            (":name").data] =
            '/' :: joinSlash (((b :: init2).map String.data) ++ [(":name").data]) := by
          simp only [joinSlash]
          rw [joinSlash_concat ((b :: init2).map String.data) hinitne]
          rfl
        rw [hshape]
        exact goCleanL_canonical (((b :: init2).map String.data) ++ [(":name").data])
          (by
            intro c hc
            rcases List.mem_append.mp hc with hc | hc
            · exact hvinit c hc
            · simp at hc
              subst hc
              exact ⟨by decide, by decide, by decide, by decide⟩)
          (by simp)
      rw [hjoin]
      show String.mk _ = absPath (((b :: init2) ++ [last]).dropLast ++ [":name"])
      rw [List.dropLast_concat]
      unfold absPath
      rw [List.map_append]
      rfl
  · intro hnm p
    unfold maskedURLPath
    rw [if_neg hnm]

/-- Witness for C7 at method DELETE and the segment list of a typical
namespaced resource URL. -/
theorem C7_masked_url_witness :
    (["api", "v1", "namespaces", "ns1", "pods", "p1"] : List String) ≠ [] ∧
    (∀ s ∈ (["api", "v1", "namespaces", "ns1", "pods", "p1"] : List String),
      vSeg s.data) ∧
    maskedURLPath "DELETE"
        (absPath ["api", "v1", "namespaces", "ns1", "pods", "p1"]) =
      absPath ((["api", "v1", "namespaces", "ns1", "pods", "p1"] :
        List String).dropLast ++ [":name"]) :=
  ⟨by decide, by decide,
    (C7_masked_url "DELETE" ["api", "v1", "namespaces", "ns1", "pods", "p1"]
      (by decide) (by decide)).1 (Or.inl rfl)⟩

end KPerf
